import Mathlib

/-!
Verification of the trajectory-window generator in
`src/ros/src/waypoint_updater/waypoint_updater.py`.

The Python node is shallowly embedded: positions and speeds become rationals,
`math.sqrt` becomes an explicit function parameter `sq : ℚ → ℚ` (the theorems
assume only the facts about `sq` they need, such as non-negativity of its
values), Python list indexing becomes an `Option`-valued access with Python's
negative-index semantics, and the node's mutable fields become an explicit
`NodeState` record threaded through a step function `loop`.  An uncaught
`IndexError` is modelled by the `CycleResult.crashed` outcome.
-/

namespace WaypointUpdater

/-- `LOOKAHEAD_WPS = 100` (waypoint_updater.py line 12). -/
def LOOKAHEAD_WPS : ℤ := 100

/-- `MAX_DECEL = 4.0` (line 13). -/
def MAX_DECEL : ℚ := 4

/-- `STOP_BUFFER = 2.5` (line 14). -/
def STOP_BUFFER : ℚ := 5 / 2

/-- `self.accel = 1.0`, set in `__init__` (line 30) and never changed. -/
def accelRate : ℚ := 1

/-- `self.decel = 1.0`, set in `__init__` (line 29) and never changed. -/
def decelRate : ℚ := 1

/-- A 3D position (`geometry_msgs` point), with rational coordinates. -/
structure Position where
  x : ℚ
  y : ℚ
  z : ℚ
  deriving DecidableEq, Repr

/-- A quaternion orientation, carried along but never read by the core. -/
structure Orient where
  x : ℚ
  y : ℚ
  z : ℚ
  w : ℚ
  deriving DecidableEq, Repr

/-- One `styx_msgs/Waypoint`: `pose.pose.position`, `pose.pose.orientation`
and the target speed `twist.twist.linear.x`. -/
structure Waypoint where
  pos : Position
  ori : Orient
  vel : ℚ
  deriving DecidableEq, Repr

/-- Default waypoint used with `List.getD` (never selected under the bounds
hypotheses of the theorems below). -/
def dummyWp : Waypoint :=
  { pos := { x := 0, y := 0, z := 0 }
    ori := { x := 0, y := 0, z := 0, w := 0 }
    vel := 0 }

instance : Inhabited Waypoint := ⟨dummyWp⟩

/-- `WaypointUpdater.distance` (lines 136-140):
`sqrt(x*x + y*y + z*z)` of the componentwise difference. -/
def distance (sq : ℚ → ℚ) (p1 p2 : Position) : ℚ :=
  sq ((p1.x - p2.x) * (p1.x - p2.x) + (p1.y - p2.y) * (p1.y - p2.y) +
      (p1.z - p2.z) * (p1.z - p2.z))

/-- Python list indexing `ws[i]`: valid for `-len ≤ i < len` (negative indices
count from the end), otherwise it raises `IndexError`, modelled as `none`. -/
def pyGet? (ws : List Waypoint) (i : ℤ) : Option Waypoint :=
  if -(ws.length : ℤ) ≤ i ∧ i < (ws.length : ℤ) then
    some (ws.getD (i % (ws.length : ℤ)).toNat dummyWp)
  else
    none

/-- The scan loop of `get_closest_waypoint` (lines 163-172): `i` is the index
of the head of the remaining list, `best`/`bestDist` the running minimum
(`bestDist = none` models the initial `float('inf')`). -/
def closestAux (sq : ℚ → ℚ) (pose : Position) :
    List Waypoint → ℕ → ℕ → Option ℚ → ℕ
  | [], _, best, _ => best
  | wp :: rest, i, best, bestDist =>
    let d := distance sq pose wp.pos
    let better : Bool :=
      match bestDist with
      | none => true
      | some b => decide (d < b)
    if better then closestAux sq pose rest (i + 1) i (some d)
    else closestAux sq pose rest (i + 1) best bestDist

/-- `WaypointUpdater.get_closest_waypoint` (lines 163-172). -/
def get_closest_waypoint (sq : ℚ → ℚ) (pose : Position) (ws : List Waypoint) : ℕ :=
  closestAux sq pose ws 0 0 none

/-- `WaypointUpdater.get_next_waypoint` (lines 176-187): a 2D projection test
on the closest waypoint and its circular successor. -/
def get_next_waypoint (sq : ℚ → ℚ) (pose : Position) (ws : List Waypoint) : ℕ :=
  let closest_wp := get_closest_waypoint sq pose ws
  let closest_wp_next := (closest_wp + 1) % ws.length
  let wp0 := ws.getD closest_wp dummyWp
  let wp1 := ws.getD closest_wp_next dummyWp
  if 0 ≤ (pose.y - wp0.pos.y) * (wp1.pos.y - wp0.pos.y) +
         (pose.x - wp0.pos.x) * (wp1.pos.x - wp0.pos.x) then
    closest_wp_next
  else
    closest_wp

/-- The window-building loop of `get_final_waypoints` (lines 89-99): adjust
`end_wp` by `+ len` when `end_wp < start_wp`, then for `i` in
`range(start_wp, end_wp + 1)` append a fresh copy of `waypoints[i % len]`. -/
def extractWindow (waypoints : List Waypoint) (start_wp end_wp : ℤ) : List Waypoint :=
  let e := if end_wp < start_wp then end_wp + (waypoints.length : ℤ) else end_wp
  (List.range (e + 1 - start_wp).toNat).map fun (k : ℕ) =>
    let w := waypoints.getD (((start_wp + (k : ℤ)) % (waypoints.length : ℤ)).toNat) dummyWp
    { pos := w.pos, ori := w.ori, vel := w.vel }

/-- The clamping loop of `accelerate` (lines 115-121): clamp each waypoint's
speed down to `sqrt(2 * accel * dist-from-start)` and stop at the first
waypoint whose speed is already within the ramp (`else: break`). -/
def accelShape (sq : ℚ → ℚ) (start : Position) : List Waypoint → List Waypoint
  | [] => []
  | wp :: rest =>
    let vel := sq (2 * accelRate * distance sq start wp.pos)
    if vel < wp.vel then { wp with vel := vel } :: accelShape sq start rest
    else wp :: rest

/-- `WaypointUpdater.accelerate` (lines 109-122).  Reads the velocity and pose
snapshots and the persistent `last_starting_point`; returns the updated
`last_starting_point` together with the shaped window.  The standstill
threshold `0.0001` is written `mkRat 1 10000` (the same rational) so that
concrete instances evaluate by `decide`. -/
def accelerate (sq : ℚ → ℚ) (current_velocity : ℚ) (current_pose : Position)
    (last_starting_point : Option Position) (waypoints : List Waypoint) :
    Option Position × List Waypoint :=
  let ls :=
    if current_velocity ≤ mkRat 1 10000 then some current_pose
    else last_starting_point
  match ls with
  | none => (none, waypoints)
  | some start => (some start, accelShape sq start waypoints)

/-- The in-place `last.twist.twist.linear.x = 0.0` of `decelerate` (line 128):
zero the speed of the last element of the list. -/
def setLastVelZero : List Waypoint → List Waypoint
  | [] => []
  | [wp] => [{ wp with vel := 0 }]
  | wp :: rest => wp :: setLastVelZero rest

/-- `WaypointUpdater.decelerate` (lines 125-134): zero the last waypoint's
speed, then give every waypoint speed
`min(sqrt(2 * decel * max(0, dist-to-last - STOP_BUFFER)), its current speed)`.
On an empty list the source raises `IndexError` at `waypoints[len - 1]`; that
case is guarded by the caller (`get_final_waypoints` below), so it is mapped
to `[]` here. -/
def decelerate (sq : ℚ → ℚ) (waypoints : List Waypoint) : List Waypoint :=
  match (setLastVelZero waypoints).getLast? with
  | none => []
  | some last =>
    (setLastVelZero waypoints).map fun wp =>
      { wp with
        vel := min (sq (2 * decelRate *
                        max 0 (distance sq wp.pos last.pos - STOP_BUFFER))) wp.vel }

/-- `WaypointUpdater.get_final_waypoints` (lines 88-106): build the window,
then shape it with `decelerate` when `self.braking` holds and with
`accelerate` otherwise.  `none` models the `IndexError` that `decelerate`
raises on an empty window. -/
def get_final_waypoints (sq : ℚ → ℚ) (braking : Bool) (current_velocity : ℚ)
    (current_pose : Position) (last_starting_point : Option Position)
    (waypoints : List Waypoint) (start_wp end_wp : ℤ) :
    Option (Option Position × List Waypoint) :=
  let final_waypoints := extractWindow waypoints start_wp end_wp
  if braking then
    match final_waypoints with
    | [] => none
    | _ :: _ => some (last_starting_point, decelerate sq final_waypoints)
  else
    some (accelerate sq current_velocity current_pose last_starting_point
      final_waypoints)

/-- The node's mutable fields (`__init__`, lines 28-34, plus the
`current_pose` / `base_waypoints` attributes set by the callbacks). -/
structure NodeState where
  current_velocity : ℚ
  traffic_waypoint : ℤ
  braking : Bool
  last_starting_point : Option Position
  base_waypoints : Option (List Waypoint)
  current_pose : Option Position
  deriving DecidableEq, Repr

/-- The state right after `__init__` (lines 28-34): no route or pose yet,
velocity 0, stop signal `-1`, not braking, no acceleration origin. -/
def initialState : NodeState :=
  { current_velocity := 0
    traffic_waypoint := -1
    braking := false
    last_starting_point := none
    base_waypoints := none
    current_pose := none }

/-- Outcome of one cycle of `loop`: no emission (missing route or pose),
a published window, or an uncaught exception killing the node. -/
inductive CycleResult where
  | skipped
  | emitted (window : List Waypoint)
  | crashed
  deriving DecidableEq, Repr

/-- Body of `loop` (lines 43-83) once `base_waypoints` and `current_pose`
exist.  Line 56 evaluates `wpts[traffic_wp]` before any bounds or sentinel
check; an out-of-range index there is an uncaught `IndexError` (`crashed`).
Branch 1 (`traffic_wp == -1`) clears `braking` and emits the full lookahead
window; branch 2 (not braking and too close to stop) keeps cruising with the
full lookahead window; branch 3 sets `braking` and emits the window up to the
stop index. -/
def loopBody (sq : ℚ → ℚ) (s : NodeState) (wpts : List Waypoint)
    (pose : Position) : NodeState × CycleResult :=
  let next_wp : ℤ := (get_next_waypoint sq pose wpts : ℕ)
  match pyGet? wpts s.traffic_waypoint with
  | none => (s, CycleResult.crashed)
  | some twp =>
    if s.traffic_waypoint = -1 then
      match get_final_waypoints sq false s.current_velocity pose
          s.last_starting_point wpts next_wp (next_wp + LOOKAHEAD_WPS) with
      | some (ls, w) =>
        ({ s with braking := false, last_starting_point := ls },
         CycleResult.emitted w)
      | none => ({ s with braking := false }, CycleResult.crashed)
    else if s.braking = false ∧
        distance sq pose twp.pos <
          s.current_velocity ^ 2 / (2 * MAX_DECEL) + STOP_BUFFER then
      match get_final_waypoints sq s.braking s.current_velocity pose
          s.last_starting_point wpts next_wp (next_wp + LOOKAHEAD_WPS) with
      | some (ls, w) =>
        ({ s with last_starting_point := ls }, CycleResult.emitted w)
      | none => (s, CycleResult.crashed)
    else
      match get_final_waypoints sq true s.current_velocity pose
          s.last_starting_point wpts next_wp s.traffic_waypoint with
      | some (ls, w) =>
        ({ s with braking := true, last_starting_point := ls },
         CycleResult.emitted w)
      | none => ({ s with braking := true }, CycleResult.crashed)

/-- One cycle of `WaypointUpdater.loop` (lines 43-83): if either snapshot is
missing the cycle is skipped (the `hasattr` guard on line 44), otherwise the
body runs. -/
def loop (sq : ℚ → ℚ) (s : NodeState) : NodeState × CycleResult :=
  match s.base_waypoints, s.current_pose with
  | some wpts, some pose => loopBody sq s wpts pose
  | _, _ => (s, CycleResult.skipped)

/-- An inbound message, one per subscriber callback (lines 143-160). -/
inductive Event where
  | poseMsg (p : Position)
  | velocityMsg (v : ℚ)
  | routeMsg (ws : List Waypoint)
  | trafficMsg (i : ℤ)
  | cycle
  deriving DecidableEq, Repr

/-- Effect of one event on the node state: the four callbacks overwrite their
snapshot slot; `cycle` runs one iteration of `loop`. -/
def stepEvent (sq : ℚ → ℚ) (s : NodeState) : Event → NodeState
  | Event.poseMsg p => { s with current_pose := some p }
  | Event.velocityMsg v => { s with current_velocity := v }
  | Event.routeMsg ws => { s with base_waypoints := some ws }
  | Event.trafficMsg i => { s with traffic_waypoint := i }
  | Event.cycle => (loop sq s).1

/-- Run a sequence of events from a state. -/
def runEvents (sq : ℚ → ℚ) (s : NodeState) : List Event → NodeState
  | [] => s
  | e :: es => runEvents sq (stepEvent sq s e) es

/-- A concrete square-root stand-in used to instantiate the theorems on
concrete inputs: it is non-negative and vanishes at 0, the only facts about
`math.sqrt` the theorems assume. -/
def sqrtLin (x : ℚ) : ℚ := max x 0

/-- The length of the emitted window of a cycle, if one was emitted. -/
def emittedLength : CycleResult → Option ℕ
  | CycleResult.emitted w => some w.length
  | _ => none

/-- A waypoint at a given x-coordinate with a given nominal speed, on the
x-axis with identity-like orientation. -/
def mkWp (x v : ℚ) : Waypoint :=
  { pos := { x := x, y := 0, z := 0 }
    ori := { x := 0, y := 0, z := 0, w := 1 }
    vel := v }

/-- A concrete 3-point route used to instantiate theorems. -/
def routeW : List Waypoint := [mkWp 0 11, mkWp 10 11, mkWp 20 11]

/-- The origin, used as a concrete vehicle pose. -/
def poseW : Position := { x := 0, y := 0, z := 0 }

/-- The spec's scenario route: 5 colinear points 10 units apart. -/
def routeFive : List Waypoint :=
  [mkWp 0 11, mkWp 10 11, mkWp 20 11, mkWp 30 11, mkWp 40 11]

/-- Concrete cycle state: vehicle at rest at point 0 of `routeFive`, no stop
signal. -/
def stateFive : NodeState :=
  { current_velocity := 0
    traffic_waypoint := -1
    braking := false
    last_starting_point := none
    base_waypoints := some routeFive
    current_pose := some poseW }

/-- Concrete cycle state with a stop-signal index (2) one past the end of a
2-point route. -/
def stateOut : NodeState :=
  { current_velocity := 0
    traffic_waypoint := 2
    braking := false
    last_starting_point := none
    base_waypoints := some [mkWp 0 11, mkWp 10 11]
    current_pose := some poseW }

/-- Concrete state that is braking while the stop signal is still set. -/
def stateBraking : NodeState :=
  { current_velocity := 0
    traffic_waypoint := 2
    braking := true
    last_starting_point := none
    base_waypoints := some routeW
    current_pose := some poseW }

/-- A concrete 2-point window whose points are within `STOP_BUFFER` of each
other. -/
def windowNear : List Waypoint := [mkWp 0 5, mkWp 1 7]

/-- A concrete event trace: the stop signal clears, then one cycle runs. -/
def eventsW : List Event := [Event.trafficMsg (-1), Event.cycle]

/-- First waypoint of the sloped route: the origin. -/
def wpSlope0 : Waypoint :=
  { pos := { x := 0, y := 0, z := 0 }
    ori := { x := 0, y := 0, z := 0, w := 1 }
    vel := 11 }

/-- Second waypoint of the sloped route: behind in x but 3 units up in z, so
the segment to it has a dominant z-component. -/
def wpSlope1 : Waypoint :=
  { pos := { x := -1, y := 0, z := 3 }
    ori := { x := 0, y := 0, z := 0, w := 1 }
    vel := 11 }

/-- A 2-point route whose segment leaves the x–y plane. -/
def routeSlope : List Waypoint := [wpSlope0, wpSlope1]

/-- A pose for which the 3D projection test and the code's planar (x, y)
projection test disagree on `routeSlope`. -/
def poseSlope : Position := { x := 1, y := 0, z := 1 }

/-! ### List helper lemmas -/

theorem getD_map_lt {α β : Type} (f : α → β) (l : List α) (j : ℕ)
    (hj : j < l.length) (d : α) (d' : β) :
    (l.map f).getD j d' = f (l.getD j d) := by
  induction l generalizing j with
  | nil => exact absurd hj (by simp)
  | cons a t ih =>
    cases j with
    | zero => rfl
    | succ k => exact ih k (by simpa using hj)

theorem getD_range (n j : ℕ) (hj : j < n) (d : ℕ) :
    (List.range n).getD j d = j := by
  rw [List.getD_eq_getElem _ _ (by simpa using hj), List.getElem_range]

/-! ### Window extraction -/

theorem extractWindow_length (ws : List Waypoint) (s e : ℤ) :
    (extractWindow ws s e).length =
      ((if e < s then e + (ws.length : ℤ) else e) + 1 - s).toNat := by
  simp [extractWindow]

theorem extractWindow_getD (ws : List Waypoint) (s e : ℤ) (j : ℕ)
    (hj : j < (extractWindow ws s e).length) :
    (extractWindow ws s e).getD j dummyWp =
      ws.getD (((s + (j : ℤ)) % (ws.length : ℤ)).toNat) dummyWp := by
  rw [extractWindow_length] at hj
  unfold extractWindow
  rw [getD_map_lt _ _ j (by simpa using hj) 0]
  rw [getD_range _ _ hj]

theorem getD_mem_of_lt (l : List Waypoint) (j : ℕ) (hj : j < l.length)
    (d : Waypoint) : l.getD j d ∈ l := by
  rw [List.getD_eq_getElem l d hj]
  exact List.getElem_mem hj

/-! ### setLastVelZero lemmas -/

theorem setLastVelZero_length (ws : List Waypoint) :
    (setLastVelZero ws).length = ws.length := by
  induction ws with
  | nil => rfl
  | cons wp rest ih =>
    cases rest with
    | nil => rfl
    | cons b t =>
      show (wp :: setLastVelZero (b :: t)).length = (wp :: b :: t).length
      simpa using ih

theorem setLastVelZero_getD (ws : List Waypoint) (j : ℕ) (hj : j < ws.length) :
    (setLastVelZero ws).getD j dummyWp =
      if j + 1 = ws.length then { ws.getD j dummyWp with vel := 0 }
      else ws.getD j dummyWp := by
  induction ws generalizing j with
  | nil => simp at hj
  | cons wp rest ih =>
    cases rest with
    | nil =>
      have hz : j = 0 := by simpa using hj
      subst hz
      simp [setLastVelZero]
    | cons b t =>
      cases j with
      | zero =>
        show (wp :: setLastVelZero (b :: t)).getD 0 dummyWp = _
        rw [List.getD_cons_zero, if_neg (by simp)]
        rw [List.getD_cons_zero]
      | succ k =>
        have hk : k < (b :: t).length := by simpa using hj
        show (wp :: setLastVelZero (b :: t)).getD (k + 1) dummyWp = _
        rw [List.getD_cons_succ, ih k hk]
        by_cases h : k + 1 = (b :: t).length
        · rw [if_pos h, if_pos (by simp only [List.length_cons] at h ⊢; omega),
            List.getD_cons_succ]
        · rw [if_neg h, if_neg (by simp only [List.length_cons] at h ⊢; omega),
            List.getD_cons_succ]

theorem setLastVelZero_getD_pos (ws : List Waypoint) (j : ℕ) (hj : j < ws.length) :
    ((setLastVelZero ws).getD j dummyWp).pos = (ws.getD j dummyWp).pos := by
  rw [setLastVelZero_getD ws j hj]
  split <;> rfl

theorem setLastVelZero_getD_ori (ws : List Waypoint) (j : ℕ) (hj : j < ws.length) :
    ((setLastVelZero ws).getD j dummyWp).ori = (ws.getD j dummyWp).ori := by
  rw [setLastVelZero_getD ws j hj]
  split <;> rfl

theorem setLastVelZero_getD_vel (ws : List Waypoint) (j : ℕ) (hj : j < ws.length) :
    ((setLastVelZero ws).getD j dummyWp).vel =
      if j + 1 = ws.length then 0 else (ws.getD j dummyWp).vel := by
  rw [setLastVelZero_getD ws j hj]
  split <;> rfl

theorem setLastVelZero_getLast? (ws : List Waypoint) :
    (setLastVelZero ws).getLast? =
      ws.getLast?.map fun w => { w with vel := 0 } := by
  induction ws with
  | nil => rfl
  | cons wp rest ih =>
    cases rest with
    | nil => rfl
    | cons b t =>
      show (wp :: setLastVelZero (b :: t)).getLast? = _
      have hne : setLastVelZero (b :: t) ≠ [] := by
        intro h
        have hl := setLastVelZero_length (b :: t)
        rw [h] at hl
        simp at hl
      obtain ⟨c, l, hcl⟩ : ∃ c l, setLastVelZero (b :: t) = c :: l := by
        cases hsl : setLastVelZero (b :: t) with
        | nil => exact absurd hsl hne
        | cons c l => exact ⟨c, l, rfl⟩
      rw [hcl, List.getLast?_cons_cons, ← hcl, ih, List.getLast?_cons_cons]

/-! ### decelerate lemmas -/

theorem decelerate_eq_map (sq : ℚ → ℚ) (ws : List Waypoint) (lw : Waypoint)
    (hlast : ws.getLast? = some lw) :
    decelerate sq ws =
      (setLastVelZero ws).map fun wp =>
        { wp with
          vel := min (sq (2 * decelRate *
              max 0 (distance sq wp.pos lw.pos - STOP_BUFFER))) wp.vel } := by
  unfold decelerate
  rw [setLastVelZero_getLast?, hlast]
  rfl

theorem decelerate_length (sq : ℚ → ℚ) (ws : List Waypoint) (lw : Waypoint)
    (hlast : ws.getLast? = some lw) :
    (decelerate sq ws).length = ws.length := by
  rw [decelerate_eq_map sq ws lw hlast, List.length_map, setLastVelZero_length]

theorem decelerate_getD (sq : ℚ → ℚ) (ws : List Waypoint) (lw : Waypoint)
    (hlast : ws.getLast? = some lw) (j : ℕ) (hj : j < ws.length) :
    (decelerate sq ws).getD j dummyWp =
      { (setLastVelZero ws).getD j dummyWp with
        vel := min (sq (2 * decelRate *
            max 0 (distance sq ((setLastVelZero ws).getD j dummyWp).pos lw.pos
                   - STOP_BUFFER)))
          ((setLastVelZero ws).getD j dummyWp).vel } := by
  rw [decelerate_eq_map sq ws lw hlast,
    getD_map_lt _ _ j (by rw [setLastVelZero_length]; exact hj) dummyWp]

theorem wp_ext (a b : Waypoint) (h1 : a.pos = b.pos) (h2 : a.ori = b.ori)
    (h3 : a.vel = b.vel) : a = b := by
  cases a
  cases b
  simp only at h1 h2 h3
  subst h1
  subst h2
  subst h3
  rfl

theorem list_ext_getD (l1 l2 : List Waypoint) (hlen : l1.length = l2.length)
    (h : ∀ j, j < l1.length → l1.getD j dummyWp = l2.getD j dummyWp) :
    l1 = l2 := by
  apply List.ext_getElem hlen
  intro n h1 h2
  rw [← List.getD_eq_getElem l1 dummyWp h1, ← List.getD_eq_getElem l2 dummyWp h2]
  exact h n h1

theorem decelerate_getD_pos (sq : ℚ → ℚ) (ws : List Waypoint) (lw : Waypoint)
    (hlast : ws.getLast? = some lw) (j : ℕ) (hj : j < ws.length) :
    ((decelerate sq ws).getD j dummyWp).pos = (ws.getD j dummyWp).pos := by
  rw [decelerate_getD sq ws lw hlast j hj]
  exact setLastVelZero_getD_pos ws j hj

theorem decelerate_getD_ori (sq : ℚ → ℚ) (ws : List Waypoint) (lw : Waypoint)
    (hlast : ws.getLast? = some lw) (j : ℕ) (hj : j < ws.length) :
    ((decelerate sq ws).getD j dummyWp).ori = (ws.getD j dummyWp).ori := by
  rw [decelerate_getD sq ws lw hlast j hj]
  exact setLastVelZero_getD_ori ws j hj

theorem decelerate_getD_vel (sq : ℚ → ℚ) (ws : List Waypoint) (lw : Waypoint)
    (hlast : ws.getLast? = some lw) (j : ℕ) (hj : j < ws.length) :
    ((decelerate sq ws).getD j dummyWp).vel =
      min (sq (2 * decelRate *
          max 0 (distance sq (ws.getD j dummyWp).pos lw.pos - STOP_BUFFER)))
        (if j + 1 = ws.length then 0 else (ws.getD j dummyWp).vel) := by
  rw [decelerate_getD sq ws lw hlast j hj]
  show min (sq (2 * decelRate *
      max 0 (distance sq ((setLastVelZero ws).getD j dummyWp).pos lw.pos
             - STOP_BUFFER))) ((setLastVelZero ws).getD j dummyWp).vel = _
  rw [setLastVelZero_getD_pos ws j hj, setLastVelZero_getD_vel ws j hj]

/-! ### accelShape lemmas -/

theorem accelShape_length (sq : ℚ → ℚ) (start : Position) (ws : List Waypoint) :
    (accelShape sq start ws).length = ws.length := by
  induction ws with
  | nil => rfl
  | cons wp rest ih =>
    simp only [accelShape]
    split
    · simpa using ih
    · rfl

theorem accelShape_getD (sq : ℚ → ℚ) (start : Position) (ws : List Waypoint)
    (j : ℕ) (hj : j < ws.length) :
    ((accelShape sq start ws).getD j dummyWp).pos = (ws.getD j dummyWp).pos ∧
    ((accelShape sq start ws).getD j dummyWp).ori = (ws.getD j dummyWp).ori ∧
    (((accelShape sq start ws).getD j dummyWp).vel = (ws.getD j dummyWp).vel ∨
     (((accelShape sq start ws).getD j dummyWp).vel =
        sq (2 * accelRate * distance sq start (ws.getD j dummyWp).pos) ∧
      ((accelShape sq start ws).getD j dummyWp).vel ≤ (ws.getD j dummyWp).vel)) := by
  induction ws generalizing j with
  | nil => simp at hj
  | cons wp rest ih =>
    simp only [accelShape]
    split
    · cases j with
      | zero =>
        refine ⟨rfl, rfl, Or.inr ⟨rfl, le_of_lt (by assumption)⟩⟩
      | succ k =>
        have hk : k < rest.length := by simpa using hj
        simpa using ih k hk
    · exact ⟨rfl, rfl, Or.inl rfl⟩

theorem accelShape_idem (sq : ℚ → ℚ) (start : Position) (ws : List Waypoint) :
    accelShape sq start (accelShape sq start ws) = accelShape sq start ws := by
  cases ws with
  | nil => rfl
  | cons wp rest =>
    by_cases h : sq (2 * accelRate * distance sq start wp.pos) < wp.vel
    · have h1 : accelShape sq start (wp :: rest) =
          { wp with vel := sq (2 * accelRate * distance sq start wp.pos) } ::
            accelShape sq start rest := by
        simp only [accelShape]
        rw [if_pos h]
      rw [h1]
      simp only [accelShape]
      rw [if_neg (lt_irrefl _)]
    · have h1 : accelShape sq start (wp :: rest) = wp :: rest := by
        simp only [accelShape]
        rw [if_neg h]
      rw [h1, h1]

theorem accelerate_idem (sq : ℚ → ℚ) (current_velocity : ℚ)
    (current_pose : Position) (ls : Option Position) (ws : List Waypoint) :
    accelerate sq current_velocity current_pose
        (accelerate sq current_velocity current_pose ls ws).1
        (accelerate sq current_velocity current_pose ls ws).2
      = accelerate sq current_velocity current_pose ls ws := by
  unfold accelerate
  by_cases h : current_velocity ≤ mkRat 1 10000
  · rw [if_pos h]
    dsimp only
    rw [if_pos h]
    dsimp only
    rw [accelShape_idem]
  · rw [if_neg h]
    cases ls with
    | none =>
      dsimp only
      rw [if_neg h]
    | some start =>
      dsimp only
      rw [if_neg h]
      dsimp only
      rw [accelShape_idem]

theorem decelerate_idem (sq : ℚ → ℚ) (ws : List Waypoint) :
    decelerate sq (decelerate sq ws) = decelerate sq ws := by
  cases hws : ws.getLast? with
  | none =>
    have h : ws = [] := List.getLast?_eq_none_iff.mp hws
    subst h
    rfl
  | some lw =>
    have hlen1 : (decelerate sq ws).length = ws.length :=
      decelerate_length sq ws lw hws
    have hlast1 : (decelerate sq ws).getLast? = some
        { lw with vel := min (sq (2 * decelRate *
            max 0 (distance sq lw.pos lw.pos - STOP_BUFFER))) 0 } := by
      rw [decelerate_eq_map sq ws lw hws, List.getLast?_map,
        setLastVelZero_getLast?, hws]
      rfl
    have hlen2 : (decelerate sq (decelerate sq ws)).length
        = (decelerate sq ws).length :=
      decelerate_length sq (decelerate sq ws) _ hlast1
    apply list_ext_getD _ _ hlen2
    intro j hj
    have hj1 : j < (decelerate sq ws).length := by omega
    have hj2 : j < ws.length := by omega
    apply wp_ext
    · rw [decelerate_getD_pos sq (decelerate sq ws) _ hlast1 j hj1,
        decelerate_getD_pos sq ws lw hws j hj2]
    · rw [decelerate_getD_ori sq (decelerate sq ws) _ hlast1 j hj1,
        decelerate_getD_ori sq ws lw hws j hj2]
    · rw [decelerate_getD_vel sq (decelerate sq ws) _ hlast1 j hj1]
      dsimp only
      rw [decelerate_getD_pos sq ws lw hws j hj2, hlen1]
      rw [decelerate_getD_vel sq ws lw hws j hj2]
      by_cases hl : j + 1 = ws.length
      · rw [if_pos hl, if_pos hl]
      · rw [if_neg hl, if_neg hl]
        rw [← min_assoc, min_self]

/-! ### Localizer lemmas -/

theorem closestAux_cases (sq : ℚ → ℚ) (pose : Position) (ws : List Waypoint)
    (i best : ℕ) (bd : Option ℚ) :
    closestAux sq pose ws i best bd = best ∨
      (i ≤ closestAux sq pose ws i best bd ∧
       closestAux sq pose ws i best bd < i + ws.length) := by
  induction ws generalizing i best bd with
  | nil => exact Or.inl rfl
  | cons wp rest ih =>
    simp only [closestAux, List.length_cons]
    split
    · rcases ih (i + 1) i (some (distance sq pose wp.pos)) with h1 | h1
      · right
        rw [h1]
        omega
      · right
        omega
    · rcases ih (i + 1) best bd with h1 | h1
      · left
        exact h1
      · right
        omega

theorem get_closest_waypoint_lt (sq : ℚ → ℚ) (pose : Position)
    (ws : List Waypoint) (h : 0 < ws.length) :
    get_closest_waypoint sq pose ws < ws.length := by
  unfold get_closest_waypoint
  rcases closestAux_cases sq pose ws 0 0 none with h1 | h1
  · omega
  · omega

/-! ### Claim theorems -/

/-- C6: for every route of length `N ≥ 2` and indices `start_wp`, `end_wp` in
`[0, N)` with `end_wp < start_wp`, window extraction produces exactly
`(end_wp + N - start_wp) % N + 1` points, and each produced point equals the
route point at the corresponding index taken modulo `N`. -/
theorem extract_wrapped_window_spec (ws : List Waypoint) (start_wp end_wp : ℕ)
    (hN : 2 ≤ ws.length) (hs : start_wp < ws.length) (he : end_wp < ws.length)
    (hlt : end_wp < start_wp) :
    (extractWindow ws (start_wp : ℤ) (end_wp : ℤ)).length
        = (end_wp + ws.length - start_wp) % ws.length + 1 ∧
    ∀ j, j < (extractWindow ws (start_wp : ℤ) (end_wp : ℤ)).length →
      (extractWindow ws (start_wp : ℤ) (end_wp : ℤ)).getD j dummyWp
        = ws.getD ((start_wp + j) % ws.length) dummyWp := by
  have hlt' : (end_wp : ℤ) < (start_wp : ℤ) := by exact_mod_cast hlt
  have hlen : (extractWindow ws (start_wp : ℤ) (end_wp : ℤ)).length
      = end_wp + ws.length - start_wp + 1 := by
    rw [extractWindow_length, if_pos hlt']
    omega
  have hmod : (end_wp + ws.length - start_wp) % ws.length
      = end_wp + ws.length - start_wp := Nat.mod_eq_of_lt (by omega)
  refine ⟨?_, ?_⟩
  · rw [hlen, hmod]
  · intro j hj
    rw [extractWindow_getD _ _ _ _ hj]
    congr 1

/-- Witness for C6 at a concrete wrapped window: route of 3 points,
`start_wp = 2`, `end_wp = 0`. -/
theorem extract_wrapped_window_spec_witness :
    (extractWindow routeW ((2 : ℕ) : ℤ) ((0 : ℕ) : ℤ)).length
        = (0 + routeW.length - 2) % routeW.length + 1 ∧
    ∀ j, j < (extractWindow routeW ((2 : ℕ) : ℤ) ((0 : ℕ) : ℤ)).length →
      (extractWindow routeW ((2 : ℕ) : ℤ) ((0 : ℕ) : ℤ)).getD j dummyWp
        = routeW.getD ((2 + j) % routeW.length) dummyWp :=
  extract_wrapped_window_spec routeW 2 0 (by decide) (by decide) (by decide)
    (by decide)

/-- C7 (counterexample to the claim as stated): the claim's test is the full
3D dot product `(pose - wp0)·(wp1 - wp0)`, but line 185 of the source uses
only the x and y components.  On `routeSlope` with pose `poseSlope` the
closest waypoint is index 0 and the 3D dot product is `2 ≥ 0`, so the claim
requires the successor index `(0 + 1) % 2`; the code's planar product is
`-1 < 0` and it returns the closest index 0 instead. -/
theorem next_waypoint_3d_dot_counterexample :
    get_closest_waypoint sqrtLin poseSlope routeSlope = 0 ∧
    0 ≤ (poseSlope.x - (routeSlope.getD 0 dummyWp).pos.x) *
          ((routeSlope.getD 1 dummyWp).pos.x - (routeSlope.getD 0 dummyWp).pos.x) +
        (poseSlope.y - (routeSlope.getD 0 dummyWp).pos.y) *
          ((routeSlope.getD 1 dummyWp).pos.y - (routeSlope.getD 0 dummyWp).pos.y) +
        (poseSlope.z - (routeSlope.getD 0 dummyWp).pos.z) *
          ((routeSlope.getD 1 dummyWp).pos.z - (routeSlope.getD 0 dummyWp).pos.z) ∧
    get_next_waypoint sqrtLin poseSlope routeSlope = 0 ∧
    (0 : ℕ) ≠ (0 + 1) % routeSlope.length := by
  have hd0 : distance sqrtLin poseSlope wpSlope0.pos = 2 := by
    norm_num [distance, sqrtLin, poseSlope, wpSlope0]
  have hd1 : distance sqrtLin poseSlope wpSlope1.pos = 8 := by
    norm_num [distance, sqrtLin, poseSlope, wpSlope1]
  have hclosest : get_closest_waypoint sqrtLin poseSlope routeSlope = 0 := by
    unfold get_closest_waypoint routeSlope
    simp only [closestAux, hd0, hd1]
    norm_num
  refine ⟨hclosest, ?_, ?_, by decide⟩
  · norm_num [poseSlope, routeSlope, wpSlope0, wpSlope1,
      List.getD_cons_zero, List.getD_cons_succ]
  · unfold get_next_waypoint
    rw [hclosest]
    norm_num [routeSlope, wpSlope0, wpSlope1, poseSlope,
      List.getD_cons_zero, List.getD_cons_succ]

/-- C7 (amended): next-waypoint selection returns the circular successor of
the closest waypoint exactly when the planar projection — the dot product
`(pose - wp0)·(wp1 - wp0)` restricted to the x and y components, as the
source computes it — is non-negative, the closest waypoint itself otherwise,
and always returns a valid route index. -/
theorem next_waypoint_projection_rule (sq : ℚ → ℚ) (pose : Position)
    (ws : List Waypoint) (hN : 2 ≤ ws.length) :
    (get_next_waypoint sq pose ws =
      if 0 ≤ (pose.y - (ws.getD (get_closest_waypoint sq pose ws) dummyWp).pos.y) *
               ((ws.getD ((get_closest_waypoint sq pose ws + 1) % ws.length) dummyWp).pos.y -
                (ws.getD (get_closest_waypoint sq pose ws) dummyWp).pos.y) +
             (pose.x - (ws.getD (get_closest_waypoint sq pose ws) dummyWp).pos.x) *
               ((ws.getD ((get_closest_waypoint sq pose ws + 1) % ws.length) dummyWp).pos.x -
                (ws.getD (get_closest_waypoint sq pose ws) dummyWp).pos.x)
       then (get_closest_waypoint sq pose ws + 1) % ws.length
       else get_closest_waypoint sq pose ws) ∧
    get_next_waypoint sq pose ws < ws.length := by
  refine ⟨rfl, ?_⟩
  have hc := get_closest_waypoint_lt sq pose ws (by omega)
  unfold get_next_waypoint
  dsimp only
  split
  · exact Nat.mod_lt _ (by omega)
  · exact hc

/-- C4: for every non-empty window with non-negative pre-shaping speeds,
`decelerate` yields a window whose last point's target speed is exactly 0 and
in which every point's target speed is at most its pre-shaping target speed.
(The only fact assumed about the square root is that its values are
non-negative.) -/
theorem decelerate_last_zero_and_le (sq : ℚ → ℚ) (hnn : ∀ x, 0 ≤ sq x)
    (ws : List Waypoint) (hne : ws ≠ []) (hpos : ∀ wp ∈ ws, 0 ≤ wp.vel) :
    (∃ l, (decelerate sq ws).getLast? = some l ∧ l.vel = 0) ∧
    ∀ j, j < ws.length →
      ((decelerate sq ws).getD j dummyWp).vel ≤ (ws.getD j dummyWp).vel := by
  obtain ⟨lw, hlast⟩ : ∃ lw, ws.getLast? = some lw := by
    cases h : ws.getLast? with
    | none => exact absurd (List.getLast?_eq_none_iff.mp h) hne
    | some lw => exact ⟨lw, rfl⟩
  constructor
  · refine ⟨{ lw with
        vel := min (sq (2 * decelRate *
            max 0 (distance sq lw.pos lw.pos - STOP_BUFFER))) 0 }, ?_, ?_⟩
    · rw [decelerate_eq_map sq ws lw hlast, List.getLast?_map,
        setLastVelZero_getLast?, hlast, Option.map_some', Option.map_some']
    · exact min_eq_right (hnn _)
  · intro j hj
    rw [decelerate_getD sq ws lw hlast j hj]
    show min _ ((setLastVelZero ws).getD j dummyWp).vel ≤ _
    refine le_trans (min_le_right _ _) ?_
    rw [setLastVelZero_getD_vel ws j hj]
    split
    · exact hpos _ (getD_mem_of_lt ws j hj dummyWp)
    · exact le_refl _

/-- Witness for C4 on a concrete 2-point window. -/
theorem decelerate_last_zero_and_le_witness :
    (∃ l, (decelerate sqrtLin windowNear).getLast? = some l ∧ l.vel = 0) ∧
    ∀ j, j < windowNear.length →
      ((decelerate sqrtLin windowNear).getD j dummyWp).vel ≤
        (windowNear.getD j dummyWp).vel :=
  decelerate_last_zero_and_le sqrtLin (fun x => le_max_right x 0) windowNear
    (by decide) (by decide)

/-- C10: in `decelerate`, every window point whose distance to the window's
last point is at most `STOP_BUFFER` (2.5) receives target speed exactly 0
(non-negative pre-shaping speeds; the square root is assumed to vanish
at 0). -/
theorem decelerate_buffer_zone_zero (sq : ℚ → ℚ) (h0 : sq 0 = 0)
    (ws : List Waypoint) (lw : Waypoint)
    (hlast : ws.getLast? = some lw) (hpos : ∀ wp ∈ ws, 0 ≤ wp.vel) (j : ℕ)
    (hj : j < ws.length)
    (hd : distance sq (ws.getD j dummyWp).pos lw.pos ≤ STOP_BUFFER) :
    ((decelerate sq ws).getD j dummyWp).vel = 0 := by
  rw [decelerate_getD sq ws lw hlast j hj]
  show min (sq (2 * decelRate *
      max 0 (distance sq ((setLastVelZero ws).getD j dummyWp).pos lw.pos
             - STOP_BUFFER))) _ = 0
  rw [setLastVelZero_getD_pos ws j hj]
  have hmax : max 0 (distance sq (ws.getD j dummyWp).pos lw.pos - STOP_BUFFER)
      = 0 := max_eq_left (by linarith)
  rw [hmax, mul_zero, h0]
  refine min_eq_left ?_
  rw [setLastVelZero_getD_vel ws j hj]
  split
  · exact le_refl 0
  · exact hpos _ (getD_mem_of_lt ws j hj dummyWp)

/-- Witness for C10: the first point of `windowNear` is 1 unit from the last
point, within the 2.5 stop buffer, and receives speed 0. -/
theorem decelerate_buffer_zone_zero_witness :
    ((decelerate sqrtLin windowNear).getD 0 dummyWp).vel = 0 :=
  decelerate_buffer_zone_zero sqrtLin (by decide)
    windowNear (mkWp 1 7) (by decide) (by decide) 0 (by decide)
    (by norm_num [distance, sqrtLin, windowNear, mkWp, dummyWp, STOP_BUFFER])

/-! ### accelerate and get_final_waypoints lemmas -/

theorem exists_getLast?_of_ne_nil (l : List Waypoint) (h : l ≠ []) :
    ∃ lw, l.getLast? = some lw := by
  cases hl : l.getLast? with
  | none => exact absurd (List.getLast?_eq_none_iff.mp hl) h
  | some lw => exact ⟨lw, rfl⟩

theorem emod_toNat_lt (a : ℤ) (n : ℕ) (hn : 0 < n) :
    ((a % (n : ℤ)).toNat) < n := by
  have hne : (n : ℤ) ≠ 0 := by exact_mod_cast hn.ne'
  have h1 : 0 ≤ a % (n : ℤ) := Int.emod_nonneg a hne
  have h2 : a % (n : ℤ) < (n : ℤ) := Int.emod_lt_of_pos a (by exact_mod_cast hn)
  omega

theorem pyGet?_some_pos (ws : List Waypoint) (i : ℤ) (twp : Waypoint)
    (h : pyGet? ws i = some twp) : 0 < ws.length := by
  unfold pyGet? at h
  split at h
  · omega
  · exact absurd h (by simp)

theorem pyGet?_isSome_of_neg_one (ws : List Waypoint) (hN : 0 < ws.length) :
    ∃ twp, pyGet? ws (-1) = some twp := by
  have h1 : (1 : ℤ) ≤ (ws.length : ℤ) := by exact_mod_cast hN
  unfold pyGet?
  rw [if_pos (by omega)]
  exact ⟨_, rfl⟩

theorem accelerate_snd_cases (sq : ℚ → ℚ) (v : ℚ) (p : Position)
    (ls : Option Position) (ws : List Waypoint) :
    (accelerate sq v p ls ws).2 = ws ∨
    ∃ start, (accelerate sq v p ls ws).2 = accelShape sq start ws := by
  unfold accelerate
  by_cases h : v ≤ mkRat 1 10000
  · rw [if_pos h]
    exact Or.inr ⟨p, rfl⟩
  · rw [if_neg h]
    cases ls with
    | none => exact Or.inl rfl
    | some start => exact Or.inr ⟨start, rfl⟩

theorem accelerate_snd_length (sq : ℚ → ℚ) (v : ℚ) (p : Position)
    (ls : Option Position) (ws : List Waypoint) :
    (accelerate sq v p ls ws).2.length = ws.length := by
  rcases accelerate_snd_cases sq v p ls ws with h | ⟨start, h⟩
  · rw [h]
  · rw [h, accelShape_length]

theorem accelerate_getD_posori (sq : ℚ → ℚ) (v : ℚ) (p : Position)
    (ls : Option Position) (ws : List Waypoint) (j : ℕ) (hj : j < ws.length) :
    ((accelerate sq v p ls ws).2.getD j dummyWp).pos = (ws.getD j dummyWp).pos ∧
    ((accelerate sq v p ls ws).2.getD j dummyWp).ori = (ws.getD j dummyWp).ori := by
  rcases accelerate_snd_cases sq v p ls ws with h | ⟨start, h⟩
  · rw [h]
    exact ⟨rfl, rfl⟩
  · rw [h]
    exact ⟨(accelShape_getD sq start ws j hj).1,
           (accelShape_getD sq start ws j hj).2.1⟩

theorem accelerate_getD_vel_bounds (sq : ℚ → ℚ) (hnn : ∀ x, 0 ≤ sq x)
    (v : ℚ) (p : Position) (ls : Option Position) (ws : List Waypoint)
    (j : ℕ) (hj : j < ws.length) (hvj : 0 ≤ (ws.getD j dummyWp).vel) :
    0 ≤ ((accelerate sq v p ls ws).2.getD j dummyWp).vel ∧
    ((accelerate sq v p ls ws).2.getD j dummyWp).vel ≤ (ws.getD j dummyWp).vel := by
  rcases accelerate_snd_cases sq v p ls ws with h | ⟨start, h⟩
  · rw [h]
    exact ⟨hvj, le_refl _⟩
  · rw [h]
    rcases (accelShape_getD sq start ws j hj).2.2 with hv | ⟨hv1, hv2⟩
    · rw [hv]
      exact ⟨hvj, le_refl _⟩
    · exact ⟨hv1 ▸ hnn _, hv2⟩

theorem decelerate_getD_vel_bounds (sq : ℚ → ℚ) (hnn : ∀ x, 0 ≤ sq x)
    (ws : List Waypoint) (lw : Waypoint) (hlast : ws.getLast? = some lw)
    (j : ℕ) (hj : j < ws.length) (hvj : 0 ≤ (ws.getD j dummyWp).vel) :
    0 ≤ ((decelerate sq ws).getD j dummyWp).vel ∧
    ((decelerate sq ws).getD j dummyWp).vel ≤ (ws.getD j dummyWp).vel := by
  rw [decelerate_getD_vel sq ws lw hlast j hj]
  constructor
  · refine le_min (hnn _) ?_
    split
    · exact le_refl 0
    · exact hvj
  · refine le_trans (min_le_right _ _) ?_
    split
    · exact hvj
    · exact le_refl _

theorem gfw_cases (sq : ℚ → ℚ) (braking : Bool) (v : ℚ) (p : Position)
    (ls ls' : Option Position) (ws w : List Waypoint) (a b : ℤ)
    (h : get_final_waypoints sq braking v p ls ws a b = some (ls', w)) :
    (braking = true ∧ w = decelerate sq (extractWindow ws a b) ∧
       extractWindow ws a b ≠ []) ∨
    (braking = false ∧ (ls', w) = accelerate sq v p ls (extractWindow ws a b)) := by
  cases braking
  · right
    refine ⟨rfl, ?_⟩
    unfold get_final_waypoints at h
    simp only [Bool.false_eq_true, if_false] at h
    exact (Option.some.injEq _ _ ▸ h).symm
  · left
    unfold get_final_waypoints at h
    simp only [if_true] at h
    cases hew : extractWindow ws a b with
    | nil =>
      rw [hew] at h
      exact absurd h (by simp)
    | cons x xs =>
      rw [hew] at h
      simp only [Option.some.injEq, Prod.mk.injEq] at h
      exact ⟨rfl, h.2.symm, by simp⟩

theorem gfw_length (sq : ℚ → ℚ) (braking : Bool) (v : ℚ) (p : Position)
    (ls ls' : Option Position) (ws w : List Waypoint) (a b : ℤ)
    (h : get_final_waypoints sq braking v p ls ws a b = some (ls', w)) :
    w.length = (extractWindow ws a b).length := by
  rcases gfw_cases sq braking v p ls ls' ws w a b h with ⟨-, hw, hne⟩ | ⟨-, hw⟩
  · obtain ⟨lw, hlw⟩ := exists_getLast?_of_ne_nil _ hne
    rw [hw]
    exact decelerate_length sq _ lw hlw
  · have hw2 : w = (accelerate sq v p ls (extractWindow ws a b)).2 :=
      congrArg Prod.snd hw
    rw [hw2, accelerate_snd_length]

theorem gfw_posori (sq : ℚ → ℚ) (braking : Bool) (v : ℚ) (p : Position)
    (ls ls' : Option Position) (ws w : List Waypoint) (a b : ℤ)
    (h : get_final_waypoints sq braking v p ls ws a b = some (ls', w))
    (j : ℕ) (hj : j < w.length) :
    (w.getD j dummyWp).pos
        = (ws.getD (((a + (j : ℤ)) % (ws.length : ℤ)).toNat) dummyWp).pos ∧
    (w.getD j dummyWp).ori
        = (ws.getD (((a + (j : ℤ)) % (ws.length : ℤ)).toNat) dummyWp).ori := by
  have hlen := gfw_length sq braking v p ls ls' ws w a b h
  have hj' : j < (extractWindow ws a b).length := by omega
  have hx := extractWindow_getD ws a b j hj'
  rcases gfw_cases sq braking v p ls ls' ws w a b h with ⟨-, hw, hne⟩ | ⟨-, hw⟩
  · obtain ⟨lw, hlw⟩ := exists_getLast?_of_ne_nil _ hne
    rw [hw]
    constructor
    · rw [decelerate_getD_pos sq _ lw hlw j hj', hx]
    · rw [decelerate_getD_ori sq _ lw hlw j hj', hx]
  · have hw2 : w = (accelerate sq v p ls (extractWindow ws a b)).2 :=
      congrArg Prod.snd hw
    rw [hw2]
    have hres := accelerate_getD_posori sq v p ls (extractWindow ws a b) j hj'
    rw [hx] at hres
    exact hres

theorem gfw_bounds (sq : ℚ → ℚ) (hnn : ∀ x, 0 ≤ sq x) (braking : Bool)
    (v : ℚ) (p : Position) (ls ls' : Option Position) (ws w : List Waypoint)
    (a b : ℤ) (h : get_final_waypoints sq braking v p ls ws a b = some (ls', w))
    (hv : ∀ wp ∈ ws, 0 ≤ wp.vel) (hlen0 : 0 < ws.length) (j : ℕ)
    (hj : j < w.length) :
    0 ≤ (w.getD j dummyWp).vel ∧
    (w.getD j dummyWp).vel
        ≤ (ws.getD (((a + (j : ℤ)) % (ws.length : ℤ)).toNat) dummyWp).vel := by
  have hlen := gfw_length sq braking v p ls ls' ws w a b h
  have hj' : j < (extractWindow ws a b).length := by omega
  have hx := extractWindow_getD ws a b j hj'
  have hvj : 0 ≤ ((extractWindow ws a b).getD j dummyWp).vel := by
    rw [hx]
    exact hv _ (getD_mem_of_lt ws _ (emod_toNat_lt _ _ hlen0) dummyWp)
  rcases gfw_cases sq braking v p ls ls' ws w a b h with ⟨-, hw, hne⟩ | ⟨-, hw⟩
  · obtain ⟨lw, hlw⟩ := exists_getLast?_of_ne_nil _ hne
    rw [hw]
    have hres := decelerate_getD_vel_bounds sq hnn _ lw hlw j hj' hvj
    rw [hx] at hres
    exact hres
  · have hw2 : w = (accelerate sq v p ls (extractWindow ws a b)).2 :=
      congrArg Prod.snd hw
    rw [hw2]
    have hres := accelerate_getD_vel_bounds sq hnn v p ls (extractWindow ws a b)
      j hj' hvj
    rw [hx] at hres
    exact hres

/-! ### loop equation lemmas -/

theorem loop_eq_skip (sq : ℚ → ℚ) (s : NodeState)
    (h : s.base_waypoints = none ∨ s.current_pose = none) :
    loop sq s = (s, CycleResult.skipped) := by
  unfold loop
  cases hb : s.base_waypoints with
  | none => rfl
  | some wpts =>
    rcases h with h | h
    · rw [hb] at h
      exact absurd h (by simp)
    · rw [h]

theorem loop_eq_body (sq : ℚ → ℚ) (s : NodeState) (wpts : List Waypoint)
    (pose : Position) (hr : s.base_waypoints = some wpts)
    (hp : s.current_pose = some pose) :
    loop sq s = loopBody sq s wpts pose := by
  unfold loop
  rw [hr, hp]

theorem loopBody_pyGet_none (sq : ℚ → ℚ) (s : NodeState)
    (wpts : List Waypoint) (pose : Position)
    (h : pyGet? wpts s.traffic_waypoint = none) :
    loopBody sq s wpts pose = (s, CycleResult.crashed) := by
  unfold loopBody
  rw [h]

theorem loopBody_traffic_none (sq : ℚ → ℚ) (s : NodeState)
    (wpts : List Waypoint) (pose : Position) (twp : Waypoint)
    (h : pyGet? wpts s.traffic_waypoint = some twp)
    (ht : s.traffic_waypoint = -1) :
    loopBody sq s wpts pose =
      ({ s with
          braking := false
          last_starting_point :=
            (accelerate sq s.current_velocity pose s.last_starting_point
              (extractWindow wpts ((get_next_waypoint sq pose wpts : ℕ) : ℤ)
                (((get_next_waypoint sq pose wpts : ℕ) : ℤ) + LOOKAHEAD_WPS))).1 },
       CycleResult.emitted
         (accelerate sq s.current_velocity pose s.last_starting_point
           (extractWindow wpts ((get_next_waypoint sq pose wpts : ℕ) : ℤ)
             (((get_next_waypoint sq pose wpts : ℕ) : ℤ) + LOOKAHEAD_WPS))).2) := by
  unfold loopBody
  rw [h]
  dsimp only
  rw [if_pos ht]
  rfl

theorem loopBody_tooclose_branch (sq : ℚ → ℚ) (s : NodeState)
    (wpts : List Waypoint) (pose : Position) (twp : Waypoint)
    (h : pyGet? wpts s.traffic_waypoint = some twp)
    (ht : ¬s.traffic_waypoint = -1) (hb : s.braking = false)
    (hclose : distance sq pose twp.pos <
      s.current_velocity ^ 2 / (2 * MAX_DECEL) + STOP_BUFFER) :
    loopBody sq s wpts pose =
      ({ s with
          last_starting_point :=
            (accelerate sq s.current_velocity pose s.last_starting_point
              (extractWindow wpts ((get_next_waypoint sq pose wpts : ℕ) : ℤ)
                (((get_next_waypoint sq pose wpts : ℕ) : ℤ) + LOOKAHEAD_WPS))).1 },
       CycleResult.emitted
         (accelerate sq s.current_velocity pose s.last_starting_point
           (extractWindow wpts ((get_next_waypoint sq pose wpts : ℕ) : ℤ)
             (((get_next_waypoint sq pose wpts : ℕ) : ℤ) + LOOKAHEAD_WPS))).2) := by
  unfold loopBody
  rw [h]
  dsimp only
  rw [if_neg ht, if_pos ⟨hb, hclose⟩, hb]
  rfl

theorem loopBody_braking_branch (sq : ℚ → ℚ) (s : NodeState)
    (wpts : List Waypoint) (pose : Position) (twp : Waypoint)
    (h : pyGet? wpts s.traffic_waypoint = some twp)
    (ht : ¬s.traffic_waypoint = -1)
    (hc : ¬(s.braking = false ∧ distance sq pose twp.pos <
      s.current_velocity ^ 2 / (2 * MAX_DECEL) + STOP_BUFFER)) :
    loopBody sq s wpts pose =
      (match get_final_waypoints sq true s.current_velocity pose
          s.last_starting_point wpts ((get_next_waypoint sq pose wpts : ℕ) : ℤ)
          s.traffic_waypoint with
       | some (ls, w) =>
         ({ s with braking := true, last_starting_point := ls },
          CycleResult.emitted w)
       | none => ({ s with braking := true }, CycleResult.crashed)) := by
  unfold loopBody
  rw [h]
  dsimp only
  rw [if_neg ht, if_neg hc]

theorem loopBody_emitted (sq : ℚ → ℚ) (s : NodeState) (wpts : List Waypoint)
    (pose : Position) (w : List Waypoint)
    (hw : (loopBody sq s wpts pose).2 = CycleResult.emitted w) :
    0 < wpts.length ∧
    ∃ braking ls' endW, get_final_waypoints sq braking s.current_velocity pose
        s.last_starting_point wpts ((get_next_waypoint sq pose wpts : ℕ) : ℤ)
        endW = some (ls', w) := by
  cases hpg : pyGet? wpts s.traffic_waypoint with
  | none =>
    rw [loopBody_pyGet_none sq s wpts pose hpg] at hw
    exact absurd hw (by simp)
  | some twp =>
    refine ⟨pyGet?_some_pos wpts _ twp hpg, ?_⟩
    by_cases ht : s.traffic_waypoint = -1
    · rw [loopBody_traffic_none sq s wpts pose twp hpg ht] at hw
      dsimp only at hw
      simp only [CycleResult.emitted.injEq] at hw
      refine ⟨false,
        (accelerate sq s.current_velocity pose s.last_starting_point
          (extractWindow wpts ((get_next_waypoint sq pose wpts : ℕ) : ℤ)
            (((get_next_waypoint sq pose wpts : ℕ) : ℤ) + LOOKAHEAD_WPS))).1,
        ((get_next_waypoint sq pose wpts : ℕ) : ℤ) + LOOKAHEAD_WPS, ?_⟩
      rw [← hw]
      rfl
    · by_cases hc : s.braking = false ∧ distance sq pose twp.pos <
          s.current_velocity ^ 2 / (2 * MAX_DECEL) + STOP_BUFFER
      · rw [loopBody_tooclose_branch sq s wpts pose twp hpg ht hc.1 hc.2] at hw
        dsimp only at hw
        simp only [CycleResult.emitted.injEq] at hw
        refine ⟨false,
          (accelerate sq s.current_velocity pose s.last_starting_point
            (extractWindow wpts ((get_next_waypoint sq pose wpts : ℕ) : ℤ)
              (((get_next_waypoint sq pose wpts : ℕ) : ℤ) + LOOKAHEAD_WPS))).1,
          ((get_next_waypoint sq pose wpts : ℕ) : ℤ) + LOOKAHEAD_WPS, ?_⟩
        rw [← hw]
        rfl
      · rw [loopBody_braking_branch sq s wpts pose twp hpg ht hc] at hw
        cases hg : get_final_waypoints sq true s.current_velocity pose
            s.last_starting_point wpts
            ((get_next_waypoint sq pose wpts : ℕ) : ℤ) s.traffic_waypoint with
        | none =>
          rw [hg] at hw
          exact absurd hw (by simp)
        | some pr =>
          obtain ⟨ls2, w2⟩ := pr
          rw [hg] at hw
          dsimp only at hw
          simp only [CycleResult.emitted.injEq] at hw
          exact ⟨true, ls2, s.traffic_waypoint, by rw [hg, hw]⟩

theorem loop_base_waypoints (sq : ℚ → ℚ) (s : NodeState) :
    ((loop sq s).1).base_waypoints = s.base_waypoints := by
  cases hr : s.base_waypoints with
  | none =>
    rw [loop_eq_skip sq s (Or.inl hr)]
    exact hr
  | some wpts =>
    cases hp : s.current_pose with
    | none =>
      rw [loop_eq_skip sq s (Or.inr hp)]
      exact hr
    | some pose =>
      rw [loop_eq_body sq s wpts pose hr hp]
      cases hpg : pyGet? wpts s.traffic_waypoint with
      | none =>
        rw [loopBody_pyGet_none sq s wpts pose hpg]
        exact hr
      | some twp =>
        by_cases ht : s.traffic_waypoint = -1
        · rw [loopBody_traffic_none sq s wpts pose twp hpg ht]
          exact hr
        · by_cases hc : s.braking = false ∧ distance sq pose twp.pos <
              s.current_velocity ^ 2 / (2 * MAX_DECEL) + STOP_BUFFER
          · rw [loopBody_tooclose_branch sq s wpts pose twp hpg ht hc.1 hc.2]
            exact hr
          · rw [loopBody_braking_branch sq s wpts pose twp hpg ht hc]
            cases hg : get_final_waypoints sq true s.current_velocity pose
                s.last_starting_point wpts
                ((get_next_waypoint sq pose wpts : ℕ) : ℤ) s.traffic_waypoint with
            | none => exact hr
            | some pr =>
              obtain ⟨ls2, w2⟩ := pr
              exact hr

/-- C8: both shaping passes are idempotent when reapplied with positions and
the controller's persistent state unchanged: reapplying `accelerate` with the
state it produced returns the same state and window, and reapplying
`decelerate` returns the same window. -/
theorem shaping_passes_idempotent (sq : ℚ → ℚ) (current_velocity : ℚ)
    (current_pose : Position) (ls : Option Position) (ws : List Waypoint) :
    accelerate sq current_velocity current_pose
        (accelerate sq current_velocity current_pose ls ws).1
        (accelerate sq current_velocity current_pose ls ws).2
      = accelerate sq current_velocity current_pose ls ws ∧
    decelerate sq (decelerate sq ws) = decelerate sq ws :=
  ⟨accelerate_idem sq current_velocity current_pose ls ws,
   decelerate_idem sq ws⟩

/-- C1 (failing input): with a 2-point route and stop-signal index 2, line 56
(`wpts[traffic_wp]`) raises an uncaught `IndexError` and the cycle crashes the
node instead of rejecting the cycle and continuing. -/
theorem out_of_range_stop_signal_crashes :
    (loop sqrtLin stateOut).2 = CycleResult.crashed := by decide

/-- Helper for C3: in a single cycle, `braking` can change from `true` to
`false` only when the stop-signal snapshot is the `-1` sentinel. -/
theorem loop_braking_clear (sq : ℚ → ℚ) (s : NodeState)
    (hb : s.braking = true) (hb' : ((loop sq s).1).braking = false) :
    s.traffic_waypoint = -1 := by
  by_contra ht
  have hT : ((loop sq s).1).braking = true := by
    cases hr : s.base_waypoints with
    | none =>
      rw [loop_eq_skip sq s (Or.inl hr)]
      exact hb
    | some wpts =>
      cases hp : s.current_pose with
      | none =>
        rw [loop_eq_skip sq s (Or.inr hp)]
        exact hb
      | some pose =>
        rw [loop_eq_body sq s wpts pose hr hp]
        cases hpg : pyGet? wpts s.traffic_waypoint with
        | none =>
          rw [loopBody_pyGet_none sq s wpts pose hpg]
          exact hb
        | some twp =>
          rw [loopBody_braking_branch sq s wpts pose twp hpg ht
            (by simp [hb])]
          cases hg : get_final_waypoints sq true s.current_velocity pose
              s.last_starting_point wpts
              ((get_next_waypoint sq pose wpts : ℕ) : ℤ) s.traffic_waypoint with
          | none => rfl
          | some pr => rfl
  rw [hT] at hb'
  exact absurd hb' (by decide)

/-- C3: across any sequence of inbound messages and cycles, once `braking`
holds it can only be cleared by a cycle that runs while the stop-signal
snapshot is the `-1` sentinel ("none"); while the stop signal stays present,
`braking` persists regardless of distance or speed. -/
theorem braking_persists_until_cleared (sq : ℚ → ℚ) (s : NodeState)
    (es : List Event) (hb : s.braking = true)
    (hb' : (runEvents sq s es).braking = false) :
    ∃ i, i < es.length ∧ es[i]? = some Event.cycle ∧
      (runEvents sq s (es.take i)).traffic_waypoint = -1 := by
  induction es generalizing s with
  | nil =>
    rw [runEvents, hb] at hb'
    exact absurd hb' (by decide)
  | cons e rest ih =>
    by_cases h1 : (stepEvent sq s e).braking = true
    · obtain ⟨i, hi, hei, hti⟩ := ih (stepEvent sq s e) h1 hb'
      refine ⟨i + 1, by simp only [List.length_cons]; omega, by simpa using hei, ?_⟩
      rw [List.take_succ_cons]
      exact hti
    · have hfalse : (stepEvent sq s e).braking = false := by
        revert h1
        cases (stepEvent sq s e).braking <;> simp
      have hcycle : e = Event.cycle := by
        cases e with
        | cycle => rfl
        | poseMsg p => exact absurd hb h1
        | velocityMsg v => exact absurd hb h1
        | routeMsg ws => exact absurd hb h1
        | trafficMsg i => exact absurd hb h1
      subst hcycle
      exact ⟨0, by simp, by simp, loop_braking_clear sq s hb hfalse⟩

/-- Witness for C3: from a braking state with the stop signal still set, the
trace that clears the signal and then cycles ends with `braking` cleared, and
the theorem locates the clearing cycle. -/
theorem braking_persists_until_cleared_witness :
    ∃ i, i < eventsW.length ∧ eventsW[i]? = some Event.cycle ∧
      (runEvents sqrtLin stateBraking (eventsW.take i)).traffic_waypoint = -1 :=
  braking_persists_until_cleared sqrtLin stateBraking eventsW rfl (by decide)

theorem loop_traffic_none_spec (sq : ℚ → ℚ) (s : NodeState)
    (wpts : List Waypoint) (pose : Position)
    (hr : s.base_waypoints = some wpts) (hp : s.current_pose = some pose)
    (ht : s.traffic_waypoint = -1) (hN : 0 < wpts.length) :
    (loop sq s).2 = CycleResult.emitted
      ((accelerate sq s.current_velocity pose s.last_starting_point
        (extractWindow wpts ((get_next_waypoint sq pose wpts : ℕ) : ℤ)
          (((get_next_waypoint sq pose wpts : ℕ) : ℤ) + LOOKAHEAD_WPS))).2) := by
  obtain ⟨twp, hpg0⟩ := pyGet?_isSome_of_neg_one wpts hN
  have hpg : pyGet? wpts s.traffic_waypoint = some twp := by
    rw [ht]
    exact hpg0
  rw [loop_eq_body sq s wpts pose hr hp,
    loopBody_traffic_none sq s wpts pose twp hpg ht]

theorem full_window_length (sq : ℚ → ℚ) (v : ℚ) (p : Position)
    (ls : Option Position) (wpts : List Waypoint) (nw : ℕ) :
    (accelerate sq v p ls
      (extractWindow wpts ((nw : ℕ) : ℤ)
        (((nw : ℕ) : ℤ) + LOOKAHEAD_WPS))).2.length = 101 := by
  rw [accelerate_snd_length, extractWindow_length]
  rw [if_neg (by unfold LOOKAHEAD_WPS; omega)]
  unfold LOOKAHEAD_WPS
  omega

/-- C2 (amended): for every cycle with StopSignal none (`-1`) and route and
pose available, the emitted window is the inclusive index range
`[next_wp, next_wp + LOOKAHEAD]`: exactly `LOOKAHEAD + 1 = 101` points
starting at `next_wp` (wrapped circularly), shaped by Accelerate. -/
theorem stop_none_full_window (sq : ℚ → ℚ) (s : NodeState)
    (wpts : List Waypoint) (pose : Position)
    (hr : s.base_waypoints = some wpts) (hp : s.current_pose = some pose)
    (ht : s.traffic_waypoint = -1) (hN : 0 < wpts.length) :
    ∃ w, (loop sq s).2 = CycleResult.emitted w ∧
      w = (accelerate sq s.current_velocity pose s.last_starting_point
            (extractWindow wpts ((get_next_waypoint sq pose wpts : ℕ) : ℤ)
              (((get_next_waypoint sq pose wpts : ℕ) : ℤ) + LOOKAHEAD_WPS))).2 ∧
      w.length = 101 ∧
      ∀ j, j < w.length →
        (w.getD j dummyWp).pos =
          (wpts.getD (((((get_next_waypoint sq pose wpts : ℕ) : ℤ) + (j : ℤ))
              % (wpts.length : ℤ)).toNat) dummyWp).pos := by
  refine ⟨_, loop_traffic_none_spec sq s wpts pose hr hp ht hN, rfl,
    full_window_length sq s.current_velocity pose s.last_starting_point wpts _,
    ?_⟩
  intro j hj
  rw [accelerate_snd_length] at hj
  have hx := extractWindow_getD wpts ((get_next_waypoint sq pose wpts : ℕ) : ℤ)
    (((get_next_waypoint sq pose wpts : ℕ) : ℤ) + LOOKAHEAD_WPS) j hj
  have hres := (accelerate_getD_posori sq s.current_velocity pose
    s.last_starting_point _ j hj).1
  rw [hx] at hres
  exact hres

/-- C2 (counterexample to the claim as stated): in the spec's own scenario —
route of 5 colinear points, vehicle at rest at point 0, StopSignal none — the
emitted window has 101 points, not the LOOKAHEAD = 100 points the claim's
half-open range `[next_wp, next_wp + LOOKAHEAD)` asserts: the source iterates
`range(start, end + 1)`, an inclusive range. -/
theorem lookahead_window_not_100 :
    emittedLength (loop sqrtLin stateFive).2 = some 101 ∧ (101 : ℕ) ≠ 100 := by
  constructor
  · rw [loop_traffic_none_spec sqrtLin stateFive routeFive poseW rfl rfl rfl
      (by decide)]
    show some ((accelerate sqrtLin stateFive.current_velocity poseW
      stateFive.last_starting_point
      (extractWindow routeFive
        ((get_next_waypoint sqrtLin poseW routeFive : ℕ) : ℤ)
        (((get_next_waypoint sqrtLin poseW routeFive : ℕ) : ℤ)
          + LOOKAHEAD_WPS))).2.length) = some 101
    rw [full_window_length]
  · decide

/-- Witness for C2 (amended) on the spec's 5-point scenario. -/
theorem stop_none_full_window_witness :
    ∃ w, (loop sqrtLin stateFive).2 = CycleResult.emitted w ∧
      w = (accelerate sqrtLin stateFive.current_velocity poseW
            stateFive.last_starting_point
            (extractWindow routeFive
              ((get_next_waypoint sqrtLin poseW routeFive : ℕ) : ℤ)
              (((get_next_waypoint sqrtLin poseW routeFive : ℕ) : ℤ)
                + LOOKAHEAD_WPS))).2 ∧
      w.length = 101 ∧
      ∀ j, j < w.length →
        (w.getD j dummyWp).pos =
          (routeFive.getD
            (((((get_next_waypoint sqrtLin poseW routeFive : ℕ) : ℤ) + (j : ℤ))
              % (routeFive.length : ℤ)).toNat) dummyWp).pos :=
  stop_none_full_window sqrtLin stateFive routeFive poseW rfl rfl rfl
    (by decide)

/-- C5: every emitted target speed lies in `[0, nominal speed of the
corresponding route point]`, whichever branch and shaping pass produced the
window (the square root is assumed non-negative; route speeds non-negative). -/
theorem emitted_speeds_within_nominal (sq : ℚ → ℚ) (hnn : ∀ x, 0 ≤ sq x)
    (s : NodeState) (wpts : List Waypoint) (pose : Position)
    (hr : s.base_waypoints = some wpts) (hp : s.current_pose = some pose)
    (hv : ∀ wp ∈ wpts, 0 ≤ wp.vel) :
    ∀ w, (loop sq s).2 = CycleResult.emitted w →
      ∀ j, j < w.length →
        0 ≤ (w.getD j dummyWp).vel ∧
        (w.getD j dummyWp).vel ≤
          (wpts.getD (((((get_next_waypoint sq pose wpts : ℕ) : ℤ) + (j : ℤ))
              % (wpts.length : ℤ)).toNat) dummyWp).vel := by
  intro w hw j hj
  rw [loop_eq_body sq s wpts pose hr hp] at hw
  obtain ⟨hlen0, braking, ls', endW, hg⟩ := loopBody_emitted sq s wpts pose w hw
  exact gfw_bounds sq hnn braking s.current_velocity pose s.last_starting_point
    ls' wpts w _ endW hg hv hlen0 j hj

/-- Witness for C5 on the 5-point scenario state. -/
theorem emitted_speeds_within_nominal_witness :
    (∀ wp ∈ routeFive, 0 ≤ wp.vel) ∧
    ∀ w, (loop sqrtLin stateFive).2 = CycleResult.emitted w →
      ∀ j, j < w.length →
        0 ≤ (w.getD j dummyWp).vel ∧
        (w.getD j dummyWp).vel ≤
          (routeFive.getD
            (((((get_next_waypoint sqrtLin poseW routeFive : ℕ) : ℤ) + (j : ℤ))
              % (routeFive.length : ℤ)).toNat) dummyWp).vel :=
  ⟨by decide,
   emitted_speeds_within_nominal sqrtLin (fun x => le_max_right x 0) stateFive
     routeFive poseW rfl rfl (by decide)⟩

/-- C9: a cycle leaves the stored route unchanged, and every emitted point
carries the position and orientation of the route point at its (wrapped)
index — the window is built from copies; only target speeds are rewritten. -/
theorem route_unchanged_points_copied (sq : ℚ → ℚ) (s : NodeState)
    (wpts : List Waypoint) (pose : Position)
    (hr : s.base_waypoints = some wpts) (hp : s.current_pose = some pose) :
    ((loop sq s).1).base_waypoints = some wpts ∧
    ∀ w, (loop sq s).2 = CycleResult.emitted w →
      ∀ j, j < w.length →
        (w.getD j dummyWp).pos =
          (wpts.getD (((((get_next_waypoint sq pose wpts : ℕ) : ℤ) + (j : ℤ))
              % (wpts.length : ℤ)).toNat) dummyWp).pos ∧
        (w.getD j dummyWp).ori =
          (wpts.getD (((((get_next_waypoint sq pose wpts : ℕ) : ℤ) + (j : ℤ))
              % (wpts.length : ℤ)).toNat) dummyWp).ori := by
  refine ⟨by rw [loop_base_waypoints]; exact hr, ?_⟩
  intro w hw j hj
  rw [loop_eq_body sq s wpts pose hr hp] at hw
  obtain ⟨hlen0, braking, ls', endW, hg⟩ := loopBody_emitted sq s wpts pose w hw
  exact gfw_posori sq braking s.current_velocity pose s.last_starting_point
    ls' wpts w _ endW hg j hj

/-- Witness for C9 on the 5-point scenario state. -/
theorem route_unchanged_points_copied_witness :
    ((loop sqrtLin stateFive).1).base_waypoints = some routeFive ∧
    ∀ w, (loop sqrtLin stateFive).2 = CycleResult.emitted w →
      ∀ j, j < w.length →
        (w.getD j dummyWp).pos =
          (routeFive.getD
            (((((get_next_waypoint sqrtLin poseW routeFive : ℕ) : ℤ) + (j : ℤ))
              % (routeFive.length : ℤ)).toNat) dummyWp).pos ∧
        (w.getD j dummyWp).ori =
          (routeFive.getD
            (((((get_next_waypoint sqrtLin poseW routeFive : ℕ) : ℤ) + (j : ℤ))
              % (routeFive.length : ℤ)).toNat) dummyWp).ori :=
  route_unchanged_points_copied sqrtLin stateFive routeFive poseW rfl rfl

/-- Witness for C7 at a concrete pose and 3-point route. -/
theorem next_waypoint_projection_rule_witness :
    (get_next_waypoint sqrtLin poseW routeW =
      if 0 ≤ (poseW.y - (routeW.getD (get_closest_waypoint sqrtLin poseW routeW) dummyWp).pos.y) *
               ((routeW.getD ((get_closest_waypoint sqrtLin poseW routeW + 1) % routeW.length) dummyWp).pos.y -
                (routeW.getD (get_closest_waypoint sqrtLin poseW routeW) dummyWp).pos.y) +
             (poseW.x - (routeW.getD (get_closest_waypoint sqrtLin poseW routeW) dummyWp).pos.x) *
               ((routeW.getD ((get_closest_waypoint sqrtLin poseW routeW + 1) % routeW.length) dummyWp).pos.x -
                (routeW.getD (get_closest_waypoint sqrtLin poseW routeW) dummyWp).pos.x)
       then (get_closest_waypoint sqrtLin poseW routeW + 1) % routeW.length
       else get_closest_waypoint sqrtLin poseW routeW) ∧
    get_next_waypoint sqrtLin poseW routeW < routeW.length :=
  next_waypoint_projection_rule sqrtLin poseW routeW (by decide)

end WaypointUpdater
